import Mathlib

/-!
Verification of the TimeKeeper record-persistence layer (`src/Database.cpp`,
`src/include/Database.h`) against its natural-language specification.

The C++ engine is shallowly embedded as follows.

* `Field` embeds `db::Field = std::variant<int, double, std::string>`
  (`Database.h`, line 21).  The `double` payload is never computed with by the
  engine — it is only carried between the caller and the store — so it is
  modelled by a rational number carried opaquely.
* `Record` embeds `db::Record` (`Database.h`, lines 32-38): a field mapping plus
  the owning table name.  The C++ `RecordData` is a `std::unordered_map`; its
  iteration order is unspecified but fixed for a given container, which is
  exactly what a list of pairs models (the list order is that fixed iteration
  order).
* `Column` embeds `db::Column` (`Database.h`, lines 47-56).
* `SQLValue` models a value stored by SQLite in one column of one row: the
  native storage classes INTEGER, FLOAT, TEXT, NULL and BLOB.
* `SQLRow` models one stored row of a table.  Both tables created by the
  application carry an INTEGER PRIMARY KEY column named `id` (`main.cpp`), and
  the pseudo-ID queries of `Database.cpp` hard-code that column, so a row is an
  `id` value plus the remaining columns.  For such rowid tables SQLite scans in
  ascending `id` order; theorems that depend on the scan order take the
  sortedness of the stored row list as an explicit hypothesis.
* `Table` models one table: its declared columns and its stored rows, in
  storage (scan) order.  `DBState` models the whole database file as an
  association list from table name to table.
* The query strings are built exactly as the C++ builds them (character for
  character); the SQL semantics of executing a prepared statement is modelled
  on `Table`/`DBState`.  Modelled from SQLite's grammar: the `WHERE` keyword
  must be followed by an expression, so a generated statement whose WHERE
  clause is the empty string fails at `sqlite3_prepare_v2` with a syntax
  error; this is the only prepare failure the model represents, besides a
  statement naming a table that does not exist.
* C++ exceptions become `Except`/explicit error results: `DBError.invalidArgument`
  is the `std::invalid_argument` of `createTable`, `DBError.prepareError` any
  `sqlite3_prepare_v2` failure, `DBError.notFound` the
  "Record not found with the given criteria" error, `DBError.decodeError` the
  "Unsupported column type" error, and `DBError.unsupportedField` the
  "Unsupported field type" error of the binding loops.
-/

namespace TimeKeeper

/-- Embeds `db::Field = std::variant<int, double, std::string>`
(`Database.h`, line 21). -/
inductive Field where
  | Integer (i : Int)
  | Real (q : Rat)
  | Text (s : String)
deriving DecidableEq, Repr

/-- Embeds `db::Column` (`Database.h`, lines 47-56). -/
structure Column where
  name : String
  type : String
  primaryKey : Bool := false
  autoIncrement : Bool := false
  notNull : Bool := false
  unique : Bool := false
  defaultVal : Option String := none
  foreignKey : Option String := none
deriving DecidableEq, Repr

/-- Embeds `db::Record` (`Database.h`, lines 32-38).  The list order is the
fixed iteration order of the underlying `unordered_map`. -/
structure Record where
  data : List (String × Field)
  table : String
deriving DecidableEq, Repr

/-- One value as stored by SQLite: the five native storage classes. -/
inductive SQLValue where
  | int (i : Int)
  | real (q : Rat)
  | text (s : String)
  | null
  | blob (bytes : List Nat)
deriving DecidableEq, Repr

/-- Whether a stored value has the BLOB storage class — the one class the
decode switch of `Database.cpp` has no case for. -/
def SQLValue.isBlob : SQLValue → Bool
  | .blob _ => true
  | _ => false

/-- One stored row of a table with INTEGER PRIMARY KEY `id` (the shape of both
tables the application creates, and the shape the pseudo-ID queries of
`Database.cpp` lines 174-206 and 277-335 require). -/
structure SQLRow where
  id : Int
  rest : List (String × SQLValue)
deriving DecidableEq, Repr

/-- The columns of a row as `SELECT *` produces them: the primary key followed
by the remaining columns. -/
def SQLRow.cols (r : SQLRow) : List (String × SQLValue) :=
  ("id", SQLValue.int r.id) :: r.rest

/-- One table: declared schema plus stored rows in storage (scan) order. -/
structure Table where
  schema : List Column
  rows : List SQLRow
deriving DecidableEq, Repr

/-- The database file: an association from table name to table. -/
abbrev DBState := List (String × Table)

/-- The error outcomes of the engine; see the module comment for the mapping
from the C++ exceptions. -/
inductive DBError where
  | invalidArgument
  | prepareError
  | notFound
  | decodeError
  | unsupportedField
deriving DecidableEq, Repr

/-! ### Query-text construction (the string-building loops of `Database.cpp`) -/

/-- One iteration of the column-definition loop of `createTable`
(`Database.cpp`, lines 30-61): append a comma separator when the accumulator
is non-empty, then the column definition with its constraint keywords in the
fixed source order. -/
def columnDefStep (acc : String) (c : Column) : String :=
  (if acc = "" then acc else acc ++ ", ") ++
    (c.name ++ " " ++ c.type ++
      (if c.primaryKey then " PRIMARY KEY" else "") ++
      (if c.autoIncrement then " AUTOINCREMENT" else "") ++
      (if c.notNull then " NOT NULL" else "") ++
      (if c.unique then " UNIQUE" else "") ++
      (match c.defaultVal with
        | some v => " DEFAULT " ++ v
        | none => "") ++
      (match c.foreignKey with
        | some f => " REFERENCES " ++ f
        | none => ""))

/-- The column-definitions string of `createTable` (`Database.cpp`,
lines 29-61). -/
def columnDefinitions (columns : List Column) : String :=
  columns.foldl columnDefStep ""

/-- The CREATE TABLE text of `Database.cpp`, line 64. -/
def createTableQuery (table : String) (columns : List Column) : String :=
  "CREATE TABLE IF NOT EXISTS " ++ table ++ " (" ++ columnDefinitions columns ++ ")"

/-- One iteration of the WHERE-clause loop shared by `removeRecord`
(`Database.cpp`, lines 133-138) and `getRecord` (lines 211-216): append
an `AND` separator when the accumulated clause is non-empty, then
`key = ?`. -/
def whereStep (acc : String) (key : String) : String :=
  (if acc = "" then acc else acc ++ " AND ") ++ (key ++ " = ?")

/-- The WHERE clause built from the filter mapping's keys in iteration
order. -/
def whereClause (keys : List String) : String :=
  keys.foldl whereStep ""

/-- The DELETE text of `removeRecord` (`Database.cpp`, line 140). -/
def removeRecordQuery (table : String) (keys : List String) : String :=
  "DELETE FROM " ++ table ++ " WHERE " ++ whereClause keys

/-- The SELECT text of `getRecord` (`Database.cpp`, line 218). -/
def getRecordQuery (table : String) (keys : List String) : String :=
  "SELECT * FROM " ++ table ++ " WHERE " ++ whereClause keys

/-- One iteration of the single loop of `addRecord` that grows the column list
and the placeholder list together (`Database.cpp`, lines 88-95).  Note the
guard tests only the columns accumulator, exactly as the source does. -/
def insertStep (acc : String × String) (key : String) : String × String :=
  if acc.1 = "" then (acc.1 ++ key, acc.2 ++ "?")
  else (acc.1 ++ ", " ++ key, acc.2 ++ ", " ++ "?")

/-- The `(columns, placeholders)` pair of `addRecord` (`Database.cpp`,
lines 85-95), built by one traversal of the record's keys in iteration
order. -/
def insertParts (keys : List String) : String × String :=
  keys.foldl insertStep ("", "")

/-- The INSERT text of `addRecord` (`Database.cpp`, line 96). -/
def addRecordQuery (table : String) (keys : List String) : String :=
  "INSERT INTO " ++ table ++ " (" ++ (insertParts keys).1 ++ ") VALUES (" ++
    (insertParts keys).2 ++ ")"

/-- Transparent normal form of a comma-separated list, used to state what the
columns string of the INSERT text looks like. -/
def joinComma : List String → String
  | [] => ""
  | k :: ks => ks.foldl (fun acc k₂ => acc ++ ", " ++ k₂) k

/-! ### Parameter binding (the `holds_alternative` chains of `Database.cpp`) -/

/-- Test for the first alternative of the variant, as
`std::holds_alternative<int>` does. -/
def Field.holdsInt : Field → Bool
  | .Integer _ => true
  | _ => false

/-- Test for the second alternative of the variant
(`std::holds_alternative<double>`). -/
def Field.holdsReal : Field → Bool
  | .Real _ => true
  | _ => false

/-- Test for the third alternative of the variant
(`std::holds_alternative<std::string>`). -/
def Field.holdsText : Field → Bool
  | .Text _ => true
  | _ => false

/-- Payload extraction used under the `holdsInt` guard (`std::get<int>`). -/
def Field.getInt : Field → Int
  | .Integer i => i
  | _ => 0

/-- Payload extraction used under the `holdsReal` guard
(`std::get<double>`). -/
def Field.getReal : Field → Rat
  | .Real q => q
  | _ => 0

/-- Payload extraction used under the `holdsText` guard
(`std::get<std::string>`). -/
def Field.getText : Field → String
  | .Text s => s
  | _ => ""

/-- A kind-specific SQLite bind call: `sqlite3_bind_int`,
`sqlite3_bind_double` or `sqlite3_bind_text`. -/
inductive BindCall where
  | bindInt (i : Int)
  | bindDouble (q : Rat)
  | bindText (s : String)
deriving DecidableEq, Repr

/-- One iteration of the binding loop shared (verbatim) by `addRecord`
(`Database.cpp`, lines 106-118), `removeRecord` (lines 150-162) and
`getRecord` (lines 228-240): the `holds_alternative` chain selects the bind
call, and the final `else` throws "Unsupported field type". -/
def bindOne (key : String) (value : Field) : Except String BindCall :=
  if value.holdsInt then Except.ok (BindCall.bindInt value.getInt)
  else if value.holdsReal then Except.ok (BindCall.bindDouble value.getReal)
  else if value.holdsText then Except.ok (BindCall.bindText value.getText)
  else Except.error ("Unsupported field type in data: " ++ key)

/-- The whole binding loop: bind the values in the mapping's iteration order,
stopping at the first failure (the C++ throws out of the loop). -/
def bindAll : List (String × Field) → Except String (List BindCall)
  | [] => Except.ok []
  | (key, value) :: rest =>
    match bindOne key value, bindAll rest with
    | Except.ok c, Except.ok cs => Except.ok (c :: cs)
    | Except.error e, _ => Except.error e
    | _, Except.error e => Except.error e

/-- The bind call a field of each kind selects. -/
def fieldCall : Field → BindCall
  | .Integer i => BindCall.bindInt i
  | .Real q => BindCall.bindDouble q
  | .Text s => BindCall.bindText s

/-! ### Result-row decoding (the `sqlite3_column_type` switches) -/

/-- The decode switch shared (verbatim) by `getRecord` (`Database.cpp`,
lines 247-263), `getRecordByPseudoId` (lines 307-323) and `getAllRecords`
(lines 355-371): INTEGER to `Field.Integer`, FLOAT to `Field.Real`, TEXT to
`Field.Text`, NULL to an empty `Field.Text`, and the `default` case (BLOB)
throws "Unsupported column type". -/
def decodeValue : SQLValue → Option Field
  | .int i => some (Field.Integer i)
  | .real q => some (Field.Real q)
  | .text s => some (Field.Text s)
  | .null => some (Field.Text "")
  | .blob _ => none

/-- Decode every column of one result row, failing on the first column the
switch has no case for. -/
def decodeRow : List (String × SQLValue) → Option (List (String × Field))
  | [] => some []
  | (name, v) :: rest =>
    match decodeValue v, decodeRow rest with
    | some f, some fs => some ((name, f) :: fs)
    | _, _ => none

/-- Decode a list of rows (the stepping loop of `getAllRecords`), failing on
the first row that fails to decode. -/
def decodeRows : List SQLRow → Option (List (List (String × Field)))
  | [] => some []
  | r :: rs =>
    match decodeRow r.cols, decodeRows rs with
    | some d, some ds => some (d :: ds)
    | _, _ => none

/-! ### Filter matching (the semantics of the generated `col = ?` conjunction) -/

/-- Modelled from SQLite's comparison semantics for `column = ?` with a bound
parameter: numeric values compare across INTEGER and FLOAT, TEXT compares
only with TEXT, and NULL or BLOB storage never compares equal to a bound
int, double or text parameter. -/
def fieldMatchesValue : Field → SQLValue → Bool
  | .Integer i, .int j => i == j
  | .Integer i, .real q => (i : Rat) == q
  | .Real q, .int j => q == (j : Rat)
  | .Real q, .real q₂ => q == q₂
  | .Text s, .text s₂ => s == s₂
  | _, _ => false

/-- A row satisfies the generated WHERE clause when every `key = ?` conjunct
holds of it. -/
def rowMatches (r : SQLRow) (filter : List (String × Field)) : Bool :=
  filter.all fun p =>
    match r.cols.lookup p.1 with
    | some v => fieldMatchesValue p.2 v
    | none => false

/-! ### Pseudo-ID resolution (the ranking sub-query of `Database.cpp`,
lines 178-184 and 281-287) -/

/-- Insert a row into a list sorted by ascending `id` (helper for the
`ORDER BY id` of the ranking sub-query). -/
def insertById (r : SQLRow) : List SQLRow → List SQLRow
  | [] => [r]
  | x :: xs => if r.id ≤ x.id then r :: x :: xs else x :: insertById r xs

/-- Sort rows by ascending `id`: the `ORDER BY id` of the ranking
sub-query. -/
def sortById : List SQLRow → List SQLRow
  | [] => []
  | x :: xs => insertById x (sortById xs)

/-- Attach ranks `n, n+1, ...` to a list of rows: with `n = 1` this is
`ROW_NUMBER() OVER (ORDER BY id)` applied to an already sorted list. -/
def rankedFrom (n : Nat) : List SQLRow → List (Nat × SQLRow)
  | [] => []
  | r :: rs => (n, r) :: rankedFrom (n + 1) rs

/-- The scalar sub-query `SELECT id FROM PseudoIDs WHERE pseudo_id = ?`
(`Database.cpp`, lines 178-184): rank all rows by ascending primary key
starting at 1, and return the primary key of the row whose rank equals the
bound ordinal, or nothing when no rank matches (the scalar sub-query then
yields NULL). -/
def resolvePseudoId (rows : List SQLRow) (k : Int) : Option Int :=
  ((rankedFrom 1 (sortById rows)).find? fun p => (p.1 : Int) == k).map
    fun p => p.2.id

/-! ### The public operations, per table -/

/-- Embeds `db::Database::removeRecord` (`Database.cpp`, lines 130-172)
acting on one table: build the WHERE clause from the filter's keys, fail at
prepare when the clause is empty (the text `DELETE FROM t WHERE ` is not
valid SQL), bind the filter's values, then delete every matching row. -/
def removeRecord (t : Table) (filter : List (String × Field)) :
    Except DBError Table :=
  if whereClause (filter.map Prod.fst) = "" then Except.error DBError.prepareError
  else
    match bindAll filter with
    | Except.error _ => Except.error DBError.unsupportedField
    | Except.ok _ =>
      Except.ok { t with rows := t.rows.filter fun r => !(rowMatches r filter) }

/-- Embeds `db::Database::getRecord` (`Database.cpp`, lines 208-275) acting on
one table: build and prepare the SELECT (failing when the WHERE clause is
empty), bind the filter's values, then step once — the first matching row in
scan order is decoded and returned, and if no row matches the code throws
"Record not found with the given criteria". -/
def getRecord (t : Table) (table : String) (filter : List (String × Field)) :
    Except DBError Record :=
  if whereClause (filter.map Prod.fst) = "" then Except.error DBError.prepareError
  else
    match bindAll filter with
    | Except.error _ => Except.error DBError.unsupportedField
    | Except.ok _ =>
      match t.rows.find? (fun r => rowMatches r filter) with
      | none => Except.error DBError.notFound
      | some r =>
        match decodeRow r.cols with
        | none => Except.error DBError.decodeError
        | some d => Except.ok ⟨d, table⟩

/-- Embeds `db::Database::getRecordByPseudoId` (`Database.cpp`,
lines 277-335): resolve the ordinal through the ranking sub-query; when it
resolves to no primary key the outer `WHERE id = NULL` matches no row and the
code throws "Record not found"; otherwise the row with the resolved primary
key is decoded and returned. -/
def getRecordByPseudoId (t : Table) (table : String) (k : Int) :
    Except DBError Record :=
  match resolvePseudoId t.rows k with
  | none => Except.error DBError.notFound
  | some i =>
    match t.rows.find? (fun r => r.id == i) with
    | none => Except.error DBError.notFound
    | some r =>
      match decodeRow r.cols with
      | none => Except.error DBError.decodeError
      | some d => Except.ok ⟨d, table⟩

/-- Embeds `db::Database::removeRecordByPseudoId` (`Database.cpp`,
lines 174-206): resolve the ordinal; when it resolves to no primary key the
DELETE matches no row and the call returns normally; otherwise every row with
the resolved primary key is deleted. -/
def removeRecordByPseudoId (t : Table) (k : Int) : Except DBError Table :=
  match resolvePseudoId t.rows k with
  | none => Except.ok t
  | some i => Except.ok { t with rows := t.rows.filter fun r => !(r.id == i) }

/-- Embeds `db::Database::getAllRecords` (`Database.cpp`, lines 337-380):
`SELECT * FROM t` steps through every row in scan order, decoding each into a
Record. -/
def getAllRecords (t : Table) (table : String) : Except DBError (List Record) :=
  match decodeRows t.rows with
  | none => Except.error DBError.decodeError
  | some ds => Except.ok (ds.map fun d => ⟨d, table⟩)

/-! ### The public operations, on the whole database state -/

/-- Replace the named table. -/
def updateTable (st : DBState) (table : String) (t : Table) : DBState :=
  st.map fun p => if p.1 = table then (p.1, t) else p

/-- Embeds `db::Database::createTable` (`Database.cpp`, lines 22-81): an empty
column list throws `std::invalid_argument` before any statement is built or
executed; otherwise the prepared `CREATE TABLE IF NOT EXISTS` statement
creates the table when absent and is a no-op when a table of that name
already exists. -/
def createTableOp (st : DBState) (table : String) (columns : List Column) :
    DBState × Except DBError Unit :=
  if columns = [] then (st, Except.error DBError.invalidArgument)
  else
    match st.lookup table with
    | some _ => (st, Except.ok ())
    | none => (st ++ [(table, ⟨columns, []⟩)], Except.ok ())

/-- `removeRecord` on the database state: preparing a DELETE against a missing
table fails, as does the empty WHERE clause inside `removeRecord`; on success
only the named table changes. -/
def removeRecordOp (st : DBState) (table : String)
    (filter : List (String × Field)) : DBState × Except DBError Unit :=
  match st.lookup table with
  | none => (st, Except.error DBError.prepareError)
  | some t =>
    match removeRecord t filter with
    | Except.error e => (st, Except.error e)
    | Except.ok t₂ => (updateTable st table t₂, Except.ok ())

/-- `getRecord` on the database state: a SELECT executes no write, so the
state component is returned as the statement found it. -/
def getRecordOp (st : DBState) (table : String)
    (filter : List (String × Field)) : DBState × Except DBError Record :=
  match st.lookup table with
  | none => (st, Except.error DBError.prepareError)
  | some t => (st, getRecord t table filter)

/-- `getRecordByPseudoId` on the database state. -/
def getRecordByPseudoIdOp (st : DBState) (table : String) (k : Int) :
    DBState × Except DBError Record :=
  match st.lookup table with
  | none => (st, Except.error DBError.prepareError)
  | some t => (st, getRecordByPseudoId t table k)

/-- `getAllRecords` on the database state. -/
def getAllRecordsOp (st : DBState) (table : String) :
    DBState × Except DBError (List Record) :=
  match st.lookup table with
  | none => (st, Except.error DBError.prepareError)
  | some t => (st, getAllRecords t table)

/-! ### Helper lemmas: strings -/

lemma empty_append_str (s : String) : "" ++ s = s :=
  String.ext (by rw [String.data_append]; rfl)

lemma append_empty_str (s : String) : s ++ "" = s :=
  String.ext (by rw [String.data_append]; exact List.append_nil _)

lemma append_ne_empty_right (a b : String) (h : b ≠ "") : a ++ b ≠ "" := by
  intro hc
  apply h
  have hd := congrArg String.data hc
  rw [String.data_append] at hd
  exact String.ext (List.append_eq_nil.mp hd).2

lemma append_ne_empty_left (a b : String) (h : a ≠ "") : a ++ b ≠ "" := by
  intro hc
  apply h
  have hd := congrArg String.data hc
  rw [String.data_append] at hd
  exact String.ext (List.append_eq_nil.mp hd).1

lemma whereStep_ne_empty (acc key : String) : whereStep acc key ≠ "" :=
  append_ne_empty_right _ _ (append_ne_empty_right _ _ (by decide))

lemma foldl_whereStep_ne_empty (keys : List String) :
    ∀ acc : String, acc ≠ "" → keys.foldl whereStep acc ≠ "" := by
  induction keys with
  | nil => intro acc h; exact h
  | cons k ks ih =>
    intro acc _
    exact ih (whereStep acc k) (whereStep_ne_empty acc k)

lemma whereClause_ne_empty (keys : List String) (h : keys ≠ []) :
    whereClause keys ≠ "" := by
  cases keys with
  | nil => exact absurd rfl h
  | cons k ks =>
    exact foldl_whereStep_ne_empty ks (whereStep "" k) (whereStep_ne_empty "" k)

lemma foldl_insertStep_fst (keys : List String) :
    ∀ cs ps : String, cs ≠ "" →
      (keys.foldl insertStep (cs, ps)).1 =
        keys.foldl (fun acc k₂ => acc ++ ", " ++ k₂) cs := by
  induction keys with
  | nil => intro cs ps _; rfl
  | cons k ks ih =>
    intro cs ps hcs
    have hstep : insertStep (cs, ps) k = (cs ++ ", " ++ k, ps ++ ", " ++ "?") := by
      simp [insertStep, hcs]
    have hne : cs ++ ", " ++ k ≠ "" :=
      append_ne_empty_left _ _ (append_ne_empty_right _ _ (by decide))
    calc (List.foldl insertStep (insertStep (cs, ps) k) ks).1
        = (List.foldl insertStep (cs ++ ", " ++ k, ps ++ ", " ++ "?") ks).1 := by
          rw [hstep]
      _ = List.foldl (fun acc k₂ => acc ++ ", " ++ k₂) (cs ++ ", " ++ k) ks :=
          ih _ _ hne

lemma insertParts_fst (keys : List String) (h : ∀ k ∈ keys, k ≠ "") :
    (insertParts keys).1 = joinComma keys := by
  cases keys with
  | nil => rfl
  | cons k ks =>
    have hk : k ≠ "" := h k (List.mem_cons_self k ks)
    have hstep : insertStep ("", "") k = (k, "?") := by
      simp [insertStep, empty_append_str]
    show (List.foldl insertStep (insertStep ("", "") k) ks).1 = _
    rw [hstep]
    exact foldl_insertStep_fst ks k "?" hk

/-! ### Helper lemmas: association-list lookup -/

lemma lookup_cons_self {α β : Type} [BEq α] [LawfulBEq α] (a : α) (b : β)
    (es : List (α × β)) : List.lookup a ((a, b) :: es) = some b := by
  simp [List.lookup]

lemma lookup_cons_ne {α β : Type} [BEq α] (a k : α) (b : β) (es : List (α × β))
    (h : (a == k) = false) : List.lookup a ((k, b) :: es) = List.lookup a es := by
  simp [List.lookup, h]

lemma lookup_append_self (st : DBState) (table : String) (t : Table)
    (h : st.lookup table = none) :
    (st ++ [(table, t)]).lookup table = some t := by
  induction st with
  | nil => exact lookup_cons_self table t []
  | cons p rest ih =>
    obtain ⟨a, b⟩ := p
    cases hba : table == a with
    | true =>
      have ha : table = a := eq_of_beq hba
      rw [ha, lookup_cons_self] at h
      simp at h
    | false =>
      have h₂ : List.lookup table rest = none := by
        rwa [lookup_cons_ne _ _ _ _ hba] at h
      rw [List.cons_append, lookup_cons_ne _ _ _ _ hba]
      exact ih h₂

lemma lookup_get_of_nodup (data : List (String × Field)) :
    (data.map Prod.fst).Nodup →
    ∀ (j : Nat) (hj : j < data.length),
      List.lookup (data.get ⟨j, hj⟩).1 data = some (data.get ⟨j, hj⟩).2 := by
  induction data with
  | nil => intro _ j hj; exact absurd hj (by simp)
  | cons p ps ih =>
    intro hnodup j hj
    have h₂ : (p.1 :: ps.map Prod.fst).Nodup := by simpa using hnodup
    have hhead : p.1 ∉ ps.map Prod.fst := (List.nodup_cons.mp h₂).1
    have htl : (ps.map Prod.fst).Nodup := (List.nodup_cons.mp h₂).2
    cases j with
    | zero =>
      obtain ⟨a, b⟩ := p
      exact lookup_cons_self a b ps
    | succ j =>
      have hj₂ : j < ps.length := by simpa using hj
      have hmem : (ps.get ⟨j, hj₂⟩).1 ∈ ps.map Prod.fst :=
        List.mem_map_of_mem Prod.fst (ps.get_mem j hj₂)
      have hne : ((ps.get ⟨j, hj₂⟩).1 == p.1) = false := by
        rw [beq_eq_false_iff_ne]
        intro hc
        exact hhead (hc ▸ hmem)
      have hgoal : ((p :: ps).get ⟨j + 1, hj⟩) = ps.get ⟨j, hj₂⟩ := rfl
      rw [hgoal]
      obtain ⟨a, b⟩ := p
      rw [lookup_cons_ne _ _ _ _ hne]
      exact ih htl j hj₂

/-! ### Helper lemmas: binding -/

lemma bindOne_eq (key : String) (value : Field) :
    bindOne key value = Except.ok (fieldCall value) := by
  cases value <;> rfl

lemma bindAll_eq (data : List (String × Field)) :
    bindAll data = Except.ok (data.map fun p => fieldCall p.2) := by
  induction data with
  | nil => rfl
  | cons p rest ih =>
    obtain ⟨k, v⟩ := p
    simp [bindAll, bindOne_eq, ih]

/-! ### Helper lemmas: sorting and ranking -/

lemma length_insertById (r : SQLRow) (l : List SQLRow) :
    (insertById r l).length = l.length + 1 := by
  induction l with
  | nil => rfl
  | cons x xs ih =>
    by_cases h : r.id ≤ x.id
    · simp [insertById, h]
    · simp [insertById, h, ih]

lemma length_sortById (l : List SQLRow) : (sortById l).length = l.length := by
  induction l with
  | nil => rfl
  | cons x xs ih => simp [sortById, length_insertById, ih]

lemma mem_insertById (a r : SQLRow) (l : List SQLRow) :
    a ∈ insertById r l ↔ a = r ∨ a ∈ l := by
  induction l with
  | nil => simp [insertById]
  | cons x xs ih =>
    by_cases h : r.id ≤ x.id
    · simp [insertById, h]
    · simp [insertById, h, ih]
      tauto

lemma mem_sortById (a : SQLRow) (l : List SQLRow) :
    a ∈ sortById l ↔ a ∈ l := by
  induction l with
  | nil => simp [sortById]
  | cons x xs ih => simp [sortById, mem_insertById, ih]

lemma insertById_of_lt (x : SQLRow) (xs : List SQLRow)
    (h : ∀ y ∈ xs, x.id < y.id) : insertById x xs = x :: xs := by
  cases xs with
  | nil => rfl
  | cons y ys =>
    have : x.id ≤ y.id := le_of_lt (h y (List.mem_cons_self y ys))
    simp [insertById, this]

lemma sortById_of_sorted (rows : List SQLRow)
    (h : rows.Pairwise fun a b => a.id < b.id) : sortById rows = rows := by
  induction rows with
  | nil => rfl
  | cons x xs ih =>
    have hx := (List.pairwise_cons.mp h).1
    have hxs := (List.pairwise_cons.mp h).2
    show insertById x (sortById xs) = x :: xs
    rw [ih hxs]
    exact insertById_of_lt x xs hx

lemma find?_cons_false {α : Type} (p : α → Bool) (a : α) (l : List α)
    (h : p a = false) : List.find? p (a :: l) = List.find? p l := by
  simp [List.find?, h]

lemma mem_rankedFrom (l : List SQLRow) :
    ∀ (n : Nat) (p : Nat × SQLRow), p ∈ rankedFrom n l → p.2 ∈ l := by
  induction l with
  | nil => intro n p hp; simp [rankedFrom] at hp
  | cons r rs ih =>
    intro n p hp
    simp only [rankedFrom, List.mem_cons] at hp
    cases hp with
    | inl h => simp [h]
    | inr h => exact List.mem_cons_of_mem r (ih (n + 1) p h)

lemma rankedFrom_find (l : List SQLRow) :
    ∀ (n j : Nat) (hj : j < l.length),
      (rankedFrom n l).find? (fun p => (p.1 : Int) == ((n + j : Nat) : Int)) =
        some (n + j, l.get ⟨j, hj⟩) := by
  induction l with
  | nil => intro n j hj; exact absurd hj (by simp)
  | cons r rs ih =>
    intro n j hj
    cases j with
    | zero =>
      have hp : ((n : Int) == ((n + 0 : Nat) : Int)) = true := by simp
      simp [rankedFrom, List.find?_cons_of_pos, hp]
    | succ j =>
      have hj₂ : j < rs.length := by simpa using hj
      have hpb : ((((n, r).1 : Nat) : Int) == ((n + (j + 1) : Nat) : Int)) = false := by
        rw [beq_eq_false_iff_ne]
        intro hc
        simp only at hc
        omega
      have hrw : n + (j + 1) = (n + 1) + j := by omega
      rw [show rankedFrom n (r :: rs) = (n, r) :: rankedFrom (n + 1) rs from rfl,
        find?_cons_false (fun p => ((p.1 : Nat) : Int) == ((n + (j + 1) : Nat) : Int))
          (n, r) _ hpb, hrw]
      exact ih (n + 1) j hj₂

lemma rankedFrom_find_none (l : List SQLRow) :
    ∀ (n : Nat) (k : Int), (k < (n : Int) ∨ (n : Int) + l.length ≤ k) →
      (rankedFrom n l).find? (fun p => (p.1 : Int) == k) = none := by
  induction l with
  | nil => intro n k _; rfl
  | cons r rs ih =>
    intro n k hk
    have hpb : ((((n, r).1 : Nat) : Int) == k) = false := by
      rw [beq_eq_false_iff_ne]
      intro hc
      simp only at hc
      rcases hk with h₂ | h₂
      · omega
      · simp only [List.length_cons] at h₂
        push_cast at h₂
        omega
    have htl : k < ((n + 1 : Nat) : Int) ∨ ((n + 1 : Nat) : Int) + rs.length ≤ k := by
      rcases hk with h | h
      · left; push_cast; omega
      · right
        simp only [List.length_cons] at h
        push_cast at h ⊢
        omega
    rw [show rankedFrom n (r :: rs) = (n, r) :: rankedFrom (n + 1) rs from rfl,
      find?_cons_false (fun p => ((p.1 : Nat) : Int) == k) (n, r) _ hpb]
    exact ih (n + 1) k htl

/-! ### Helper lemmas: decoding -/

lemma decodeValue_eq_none_iff (v : SQLValue) :
    decodeValue v = none ↔ v.isBlob = true := by
  cases v <;> simp [decodeValue, SQLValue.isBlob]

lemma decodeRow_eq_none_iff (cols : List (String × SQLValue)) :
    decodeRow cols = none ↔ ∃ p ∈ cols, p.2.isBlob = true := by
  induction cols with
  | nil => simp [decodeRow]
  | cons p rest ih =>
    obtain ⟨n, v⟩ := p
    cases hv : decodeValue v with
    | none =>
      have hb : v.isBlob = true := (decodeValue_eq_none_iff v).mp hv
      simp [decodeRow, hv, hb]
    | some f =>
      have hb : v.isBlob = false := by
        cases v <;> simp_all [decodeValue, SQLValue.isBlob]
      cases hr : decodeRow rest with
      | none =>
        obtain ⟨q, hq, hqb⟩ := ih.mp hr
        simp only [decodeRow, hv, hr]
        constructor
        · intro _
          exact ⟨q, List.mem_cons_of_mem _ hq, hqb⟩
        · intro _
          trivial
      | some ds =>
        have hno : ¬ ∃ q ∈ rest, q.2.isBlob = true := by
          rw [← ih, hr]
          simp
        simp only [decodeRow, hv, hr]
        constructor
        · intro hc
          exact absurd hc (by simp)
        · intro hc
          rcases hc with ⟨q, hq, hqb⟩
          rcases List.mem_cons.mp hq with h₁ | h₁
          · rw [h₁] at hqb
            simp only at hqb
            rw [hqb] at hb
            cases hb
          · exact absurd ⟨q, h₁, hqb⟩ hno

lemma decodeRows_eq_none_iff (rows : List SQLRow) :
    decodeRows rows = none ↔ ∃ r ∈ rows, decodeRow r.cols = none := by
  induction rows with
  | nil => simp [decodeRows]
  | cons r rs ih =>
    cases hd : decodeRow r.cols with
    | none => simp [decodeRows, hd]
    | some d =>
      cases hr : decodeRows rs with
      | none =>
        obtain ⟨q, hq, hqd⟩ := ih.mp hr
        simp only [decodeRows, hd, hr]
        constructor
        · intro _
          exact ⟨q, List.mem_cons_of_mem _ hq, hqd⟩
        · intro _
          trivial
      | some ds =>
        have hno : ¬ ∃ q ∈ rs, decodeRow q.cols = none := by
          rw [← ih, hr]
          simp
        simp only [decodeRows, hd, hr]
        constructor
        · intro hc
          exact absurd hc (by simp)
        · intro hc
          rcases hc with ⟨q, hq, hqd⟩
          rcases List.mem_cons.mp hq with h₁ | h₁
          · rw [h₁, hd] at hqd
            cases hqd
          · exact absurd ⟨q, h₁, hqd⟩ hno

lemma decodeRows_length (rows : List SQLRow) :
    ∀ ds, decodeRows rows = some ds → ds.length = rows.length := by
  induction rows with
  | nil =>
    intro ds h
    simp only [decodeRows] at h
    rw [← Option.some_inj.mp h]
    rfl
  | cons r rs ih =>
    intro ds h
    cases hd : decodeRow r.cols with
    | none => simp [decodeRows, hd] at h
    | some d =>
      cases hr : decodeRows rs with
      | none => simp [decodeRows, hd, hr] at h
      | some ds₂ =>
        simp only [decodeRows, hd, hr] at h
        rw [← Option.some_inj.mp h]
        simp [ih ds₂ hr]

lemma decodeRows_get (rows : List SQLRow) :
    ∀ ds, decodeRows rows = some ds →
      ∀ (j : Nat) (hj : j < rows.length) (hj₂ : j < ds.length),
        decodeRow (rows.get ⟨j, hj⟩).cols = some (ds.get ⟨j, hj₂⟩) := by
  induction rows with
  | nil => intro ds h j hj _; exact absurd hj (by simp)
  | cons r rs ih =>
    intro ds h j hj hj₂
    cases hd : decodeRow r.cols with
    | none => simp [decodeRows, hd] at h
    | some d =>
      cases hr : decodeRows rs with
      | none => simp [decodeRows, hd, hr] at h
      | some ds₂ =>
        simp only [decodeRows, hd, hr] at h
        have hds : ds = d :: ds₂ := (Option.some_inj.mp h).symm
        subst hds
        cases j with
        | zero => exact hd
        | succ j =>
          have hj₃ : j < rs.length := by simpa using hj
          have hj₄ : j < ds₂.length := by simpa using hj₂
          exact ih ds₂ hr j hj₃ hj₄

/-! ### Helper lemmas: pseudo-ID resolution -/

lemma nodup_ids_of_sorted (rows : List SQLRow)
    (h : rows.Pairwise fun a b => a.id < b.id) :
    (rows.map SQLRow.id).Nodup := by
  have h₂ : (rows.map SQLRow.id).Pairwise (· < ·) := List.pairwise_map.mpr h
  exact h₂.imp ne_of_lt

lemma resolvePseudoId_of_sorted (rows : List SQLRow)
    (hs : rows.Pairwise fun a b => a.id < b.id) (j : Nat) (hj : j < rows.length) :
    resolvePseudoId rows (((1 + j : Nat) : Int)) = some ((rows.get ⟨j, hj⟩).id) := by
  unfold resolvePseudoId
  rw [sortById_of_sorted rows hs, rankedFrom_find rows 1 j hj]
  rfl

lemma resolvePseudoId_none (rows : List SQLRow) (k : Int)
    (hk : k < 1 ∨ (rows.length : Int) < k) :
    resolvePseudoId rows k = none := by
  unfold resolvePseudoId
  have hrange : k < ((1 : Nat) : Int) ∨ ((1 : Nat) : Int) + ((sortById rows).length : Int) ≤ k := by
    rw [length_sortById]
    rcases hk with h | h
    · left
      push_cast
      omega
    · right
      push_cast
      omega
  rw [rankedFrom_find_none (sortById rows) 1 k hrange]
  rfl

lemma resolvePseudoId_mem (rows : List SQLRow) (k i : Int)
    (h : resolvePseudoId rows k = some i) : i ∈ rows.map SQLRow.id := by
  unfold resolvePseudoId at h
  cases hf : (rankedFrom 1 (sortById rows)).find? (fun p => (p.1 : Int) == k) with
  | none => rw [hf] at h; cases h
  | some p =>
    rw [hf] at h
    have hpm : p ∈ rankedFrom 1 (sortById rows) := List.mem_of_find?_eq_some hf
    have hsorted : p.2 ∈ sortById rows := mem_rankedFrom _ 1 p hpm
    have hmem : p.2 ∈ rows := (mem_sortById _ _).mp hsorted
    have hi : i = p.2.id := (Option.some_inj.mp h).symm
    rw [hi]
    exact List.mem_map_of_mem SQLRow.id hmem

lemma find?_id_get (rows : List SQLRow) :
    (rows.map SQLRow.id).Nodup →
    ∀ (j : Nat) (hj : j < rows.length),
      rows.find? (fun r => r.id == (rows.get ⟨j, hj⟩).id) = some (rows.get ⟨j, hj⟩) := by
  induction rows with
  | nil => intro _ j hj; exact absurd hj (by simp)
  | cons r rs ih =>
    intro hnodup j hj
    have h₂ : (r.id :: rs.map SQLRow.id).Nodup := by simpa using hnodup
    cases j with
    | zero =>
      have hp : (r.id == r.id) = true := beq_self_eq_true r.id
      simp [List.find?, hp]
    | succ j =>
      have hj₂ : j < rs.length := by simpa using hj
      have hmem : (rs.get ⟨j, hj₂⟩).id ∈ rs.map SQLRow.id :=
        List.mem_map_of_mem SQLRow.id (rs.get_mem j hj₂)
      have hne : (r.id == (rs.get ⟨j, hj₂⟩).id) = false := by
        rw [beq_eq_false_iff_ne]
        intro hc
        exact (List.nodup_cons.mp h₂).1 (hc ▸ hmem)
      rw [show (r :: rs).get ⟨j + 1, hj⟩ = rs.get ⟨j, hj₂⟩ from rfl,
        find?_cons_false (fun x => x.id == (rs.get ⟨j, hj₂⟩).id) r rs hne]
      exact ih (List.nodup_cons.mp h₂).2 j hj₂

lemma length_filter_ne_id (rows : List SQLRow) (i : Int) :
    (rows.map SQLRow.id).Nodup → i ∈ rows.map SQLRow.id →
      rows.length = (rows.filter fun r => !(r.id == i)).length + 1 := by
  induction rows with
  | nil => intro _ hmem; simp at hmem
  | cons r rs ih =>
    intro hnodup hmem
    have h₂ : (r.id :: rs.map SQLRow.id).Nodup := by simpa using hnodup
    by_cases hri : r.id = i
    · have hpred : (!(r.id == i)) = false := by simp [hri]
      have hall : ∀ x ∈ rs, (!(x.id == i)) = true := by
        intro x hx
        have hxi : x.id ≠ i := by
          intro hc
          apply (List.nodup_cons.mp h₂).1
          rw [hri, ← hc]
          exact List.mem_map_of_mem SQLRow.id hx
        simp [hxi]
      rw [List.filter_cons, hpred]
      simp only [Bool.false_eq_true, if_false]
      rw [List.filter_eq_self.mpr hall]
      simp
    · have hpred : (!(r.id == i)) = true := by simp [hri]
      have hmem₂ : i ∈ rs.map SQLRow.id := by
        have h₃ : i ∈ r.id :: rs.map SQLRow.id := hmem
        rcases List.mem_cons.mp h₃ with h₁ | h₁
        · exact absurd h₁.symm hri
        · exact h₁
      have hlen := ih (List.nodup_cons.mp h₂).2 hmem₂
      rw [List.filter_cons, hpred]
      simp only [if_true, List.length_cons]
      omega

/-! ### Concrete sample data used to instantiate the theorems -/

/-- A stored row shaped like the application's `tasks` table. -/
def sampleRow : SQLRow := ⟨1, [("title", SQLValue.text "Buy milk")]⟩

/-- A second stored row with a larger primary key. -/
def sampleRow2 : SQLRow := ⟨2, [("title", SQLValue.text "Walk dog")]⟩

/-- A one-row table. -/
def sampleTable : Table := ⟨[], [sampleRow]⟩

/-- A two-row table, rows in ascending primary-key order. -/
def sample2Table : Table := ⟨[], [sampleRow, sampleRow2]⟩

/-- A database state holding the one-row `tasks` table. -/
def sampleState : DBState := [("tasks", sampleTable)]

/-- A row holding a BLOB column, which the decode switch rejects. -/
def blobRow : SQLRow := ⟨1, [("payload", SQLValue.blob [0])]⟩

/-- A table holding the BLOB row. -/
def blobTable : Table := ⟨[], [blobRow]⟩

/-- The `id` column of the application's `tasks` table (`main.cpp`). -/
def sampleColumn : Column := ⟨"id", "INTEGER", true, true, false, false, none, none⟩

/-! ### Claims -/

/-- C1 counterexample: with the `tasks` table holding one row and an empty
filter mapping, every row vacuously matches the empty conjunction, yet
`removeRecord` builds `DELETE FROM tasks WHERE ` — an empty WHERE clause,
which is not valid SQL — so the call fails at `sqlite3_prepare_v2` and
removes nothing, leaving the state unchanged: the claim that the statement
is syntactically valid and every row is removed without failure is false. -/
theorem removeRecord_empty_filter_cex :
    removeRecordQuery "tasks" [] = "DELETE FROM tasks WHERE " ∧
    removeRecordOp sampleState "tasks" [] =
      (sampleState, Except.error DBError.prepareError) ∧
    sampleTable.rows ≠ [] := by
  refine ⟨rfl, rfl, by decide⟩

/-- C1 (amended): for every database state and table name, `removeRecord`
with an empty filter mapping builds a DELETE statement whose WHERE clause is
the empty string — text that fails to prepare — so the call raises a
backing-store (prepare) error and the database state, hence every row of
every table, is unchanged; no row is deleted. -/
theorem removeRecord_empty_filter (st : DBState) (table : String) :
    removeRecordQuery table [] = "DELETE FROM " ++ table ++ " WHERE " ∧
    removeRecordOp st table [] = (st, Except.error DBError.prepareError) := by
  constructor
  · show "DELETE FROM " ++ table ++ " WHERE " ++ whereClause [] = _
    rw [show whereClause [] = "" from rfl]
    exact append_empty_str _
  · cases hlu : st.lookup table with
    | none => simp [removeRecordOp, hlu]
    | some t => simp [removeRecordOp, hlu, removeRecord, whereClause]

/-- C8: `createTable` with an empty column list throws
`std::invalid_argument` before any SQL text is built or any statement is
prepared or executed, so the call reports an invalid-input failure and the
database state is returned unchanged. -/
theorem createTable_empty_columns (st : DBState) (table : String) :
    createTableOp st table [] = (st, Except.error DBError.invalidArgument) := by
  unfold createTableOp
  rw [if_pos rfl]

/-- C9: over the closed three-kind Field variant, the `holds_alternative`
chain shared by the binding loops of addRecord, removeRecord and getRecord
always selects the kind-specific bind call — `sqlite3_bind_int` for Integer,
`sqlite3_bind_double` for Real, `sqlite3_bind_text` for Text — so the final
"Unsupported field type" branch is unreachable: `bindOne` always succeeds
and the whole binding loop `bindAll` never fails. -/
theorem bind_unsupported_unreachable :
    (∀ (key : String) (i : Int),
      bindOne key (Field.Integer i) = Except.ok (BindCall.bindInt i)) ∧
    (∀ (key : String) (q : Rat),
      bindOne key (Field.Real q) = Except.ok (BindCall.bindDouble q)) ∧
    (∀ (key : String) (s : String),
      bindOne key (Field.Text s) = Except.ok (BindCall.bindText s)) ∧
    (∀ (key : String) (value : Field),
      ∃ c, bindOne key value = Except.ok c) ∧
    (∀ data : List (String × Field),
      ∃ calls, bindAll data = Except.ok calls ∧ calls.length = data.length) := by
  refine ⟨fun key i => rfl, fun key q => rfl, fun key s => rfl, ?_, ?_⟩
  · intro key value
    exact ⟨fieldCall value, bindOne_eq key value⟩
  · intro data
    exact ⟨data.map fun p => fieldCall p.2, bindAll_eq data, by simp⟩

/-- C10: the three read operations prepare and execute only SELECT
statements, which write nothing, so on any database state they return the
state component — the contents of every table — unchanged, whether the call
succeeds, reports not-found, or fails to decode. -/
theorem reads_preserve_state (st : DBState) (table : String)
    (filter : List (String × Field)) (k : Int) :
    (getRecordOp st table filter).1 = st ∧
    (getRecordByPseudoIdOp st table k).1 = st ∧
    (getAllRecordsOp st table).1 = st := by
  refine ⟨?_, ?_, ?_⟩
  · unfold getRecordOp
    cases st.lookup table <;> rfl
  · unfold getRecordByPseudoIdOp
    cases st.lookup table <;> rfl
  · unfold getAllRecordsOp
    cases st.lookup table <;> rfl

/-- C3: `addRecord` derives the INSERT's column list and its bind list from
one single ordered traversal of the record's field mapping, so for every
position `j`: the `j`-th column name appearing in the generated SQL text is
the `j`-th key of the mapping (the columns string is exactly the
comma-separated keys in traversal order), the `j`-th prepared-statement bind
call is the call for the `j`-th value of the mapping, and — the keys of a
mapping being distinct — that `j`-th bound value is exactly the Field the
mapping associates with the `j`-th column name. -/
theorem addRecord_binding_matches_columns (data : List (String × Field))
    (hnodup : (data.map Prod.fst).Nodup)
    (hnames : ∀ key ∈ data.map Prod.fst, key ≠ "") :
    (insertParts (data.map Prod.fst)).1 = joinComma (data.map Prod.fst) ∧
    bindAll data = Except.ok (data.map fun p => fieldCall p.2) ∧
    ∀ (j : Nat) (hj : j < data.length),
      List.lookup (data.get ⟨j, hj⟩).1 data = some ((data.get ⟨j, hj⟩).2) ∧
      (data.map fun p => fieldCall p.2)[j]? =
        some (fieldCall ((data.get ⟨j, hj⟩).2)) := by
  refine ⟨insertParts_fst _ hnames, bindAll_eq data, ?_⟩
  intro j hj
  constructor
  · exact lookup_get_of_nodup data hnodup j hj
  · rw [List.getElem?_map, List.getElem?_eq_getElem hj]
    rfl

/-- Witness for C3 at a concrete two-field record. -/
theorem addRecord_binding_witness :
    bindAll [("id", Field.Integer 1), ("title", Field.Text "Buy milk")] =
      Except.ok [BindCall.bindInt 1, BindCall.bindText "Buy milk"] :=
  (addRecord_binding_matches_columns
    [("id", Field.Integer 1), ("title", Field.Text "Buy milk")]
    (by decide) (by decide)).2.1

/-- C4: `createTable` uses CREATE TABLE IF NOT EXISTS, so when a call with a
non-empty column list succeeds, an identical second call is a no-op: it does
not fail and returns the database state — in particular every table's row
data — entirely unchanged. -/
theorem createTable_idempotent (st st₂ : DBState) (table : String)
    (columns : List Column)
    (h₁ : createTableOp st table columns = (st₂, Except.ok ())) :
    createTableOp st₂ table columns = (st₂, Except.ok ()) := by
  cases columns with
  | nil =>
    exfalso
    unfold createTableOp at h₁
    rw [if_pos rfl] at h₁
    exact Except.noConfusion (congrArg Prod.snd h₁)
  | cons c cs =>
    have hne : (c :: cs : List Column) ≠ [] := List.cons_ne_nil c cs
    unfold createTableOp at h₁ ⊢
    rw [if_neg hne] at h₁
    rw [if_neg hne]
    cases hlu : st.lookup table with
    | some t =>
      rw [hlu] at h₁
      have hst : st₂ = st := (congrArg Prod.fst h₁).symm
      rw [← hst] at hlu
      rw [hlu]
    | none =>
      rw [hlu] at h₁
      have hst : st₂ = st ++ [(table, ⟨c :: cs, []⟩)] := (congrArg Prod.fst h₁).symm
      have hlu₂ : st₂.lookup table = some ⟨c :: cs, []⟩ := by
        rw [hst]
        exact lookup_append_self st table _ hlu
      rw [hlu₂]

/-- Witness for C4: creating `tasks` in an empty database and repeating the
identical call. -/
theorem createTable_idempotent_witness :
    createTableOp [("tasks", Table.mk [sampleColumn] [])] "tasks" [sampleColumn] =
      ([("tasks", Table.mk [sampleColumn] [])], Except.ok ()) :=
  createTable_idempotent [] [("tasks", Table.mk [sampleColumn] [])] "tasks"
    [sampleColumn] rfl

/-- C5: `removeRecordByPseudoId` never raises a not-found failure; when the
ordinal is out of range (non-positive or greater than the row count) the
ranking sub-query resolves to no primary key, the DELETE matches no row and
the table is unchanged; and when the ordinal resolves to a primary key the
operation removes exactly the rows carrying that key — with distinct primary
keys, exactly one row. -/
theorem removeRecordByPseudoId_spec (t : Table) (k : Int)
    (hnodup : (t.rows.map SQLRow.id).Nodup) :
    (∃ t₂, removeRecordByPseudoId t k = Except.ok t₂) ∧
    ((k < 1 ∨ (t.rows.length : Int) < k) →
      removeRecordByPseudoId t k = Except.ok t) ∧
    (∀ i, resolvePseudoId t.rows k = some i →
      removeRecordByPseudoId t k =
        Except.ok { t with rows := t.rows.filter fun r => !(r.id == i) } ∧
      t.rows.length = (t.rows.filter fun r => !(r.id == i)).length + 1) := by
  refine ⟨?_, ?_, ?_⟩
  · unfold removeRecordByPseudoId
    cases resolvePseudoId t.rows k with
    | none => exact ⟨t, rfl⟩
    | some i => exact ⟨_, rfl⟩
  · intro hk
    unfold removeRecordByPseudoId
    rw [resolvePseudoId_none t.rows k hk]
  · intro i hi
    constructor
    · unfold removeRecordByPseudoId
      rw [hi]
    · exact length_filter_ne_id t.rows i hnodup (resolvePseudoId_mem t.rows k i hi)

/-- Witness for C5: ordinal 3 against a two-row table resolves to no primary
key, removes nothing and succeeds. -/
theorem removeRecordByPseudoId_witness :
    removeRecordByPseudoId sample2Table 3 = Except.ok sample2Table :=
  (removeRecordByPseudoId_spec sample2Table 3 (by decide)).2.1 (by decide)

/-- C6: the decode switch shared by getRecord, getRecordByPseudoId and
getAllRecords maps INTEGER columns to the Integer Field kind, FLOAT to Real,
TEXT to Text, and storage NULL to an empty Text; the remaining native column
type (BLOB) has no case and is a hard decode failure: a table holding any
BLOB value makes `getAllRecords` fail with the decode error, while a table
holding none decodes completely, one Record per row. -/
theorem decode_policy :
    (∀ i, decodeValue (SQLValue.int i) = some (Field.Integer i)) ∧
    (∀ q, decodeValue (SQLValue.real q) = some (Field.Real q)) ∧
    (∀ s, decodeValue (SQLValue.text s) = some (Field.Text s)) ∧
    decodeValue SQLValue.null = some (Field.Text "") ∧
    (∀ bytes, decodeValue (SQLValue.blob bytes) = none) ∧
    (∀ (t : Table) (table : String),
      (∃ r ∈ t.rows, ∃ p ∈ r.cols, p.2.isBlob = true) →
        getAllRecords t table = Except.error DBError.decodeError) ∧
    (∀ (t : Table) (table : String),
      (∀ r ∈ t.rows, ∀ p ∈ r.cols, p.2.isBlob = false) →
        ∃ rs, getAllRecords t table = Except.ok rs ∧ rs.length = t.rows.length) := by
  refine ⟨fun i => rfl, fun q => rfl, fun s => rfl, rfl, fun bytes => rfl, ?_, ?_⟩
  · intro t table hblob
    obtain ⟨r, hr, p, hp, hpb⟩ := hblob
    have hrow : decodeRow r.cols = none :=
      (decodeRow_eq_none_iff r.cols).mpr ⟨p, hp, hpb⟩
    have hrows : decodeRows t.rows = none :=
      (decodeRows_eq_none_iff t.rows).mpr ⟨r, hr, hrow⟩
    unfold getAllRecords
    rw [hrows]
  · intro t table hnoblob
    cases hd : decodeRows t.rows with
    | none =>
      exfalso
      obtain ⟨r, hr, hrow⟩ := (decodeRows_eq_none_iff t.rows).mp hd
      obtain ⟨p, hp, hpb⟩ := (decodeRow_eq_none_iff r.cols).mp hrow
      rw [hnoblob r hr p hp] at hpb
      cases hpb
    | some ds =>
      refine ⟨ds.map fun d => ⟨d, table⟩, ?_, ?_⟩
      · unfold getAllRecords
        rw [hd]
      · rw [List.length_map]
        exact decodeRows_length t.rows ds hd

/-- Witness for C6: a table holding a BLOB value fails to decode. -/
theorem decode_policy_witness :
    getAllRecords blobTable "blobs" = Except.error DBError.decodeError :=
  decode_policy.2.2.2.2.2.1 blobTable "blobs"
    ⟨blobRow, by decide, ("payload", SQLValue.blob [0]), by decide, rfl⟩

/-- C2: for a table whose stored rows are in ascending primary-key order (as
SQLite scans a rowid table), when `getAllRecords` succeeds with `N` records,
`getRecordByPseudoId` at ordinal `1 ≤ k ≤ N` returns exactly the record that
`getAllRecords` put at position `k - 1` — the row holding the `k`-th
smallest primary key — and at `k < 1` or `k > N` it reports not-found. -/
theorem getRecordByPseudoId_spec (t : Table) (table : String) (k : Int)
    (rs : List Record)
    (hsorted : t.rows.Pairwise fun a b => a.id < b.id)
    (hall : getAllRecords t table = Except.ok rs) :
    (1 ≤ k → k ≤ rs.length → ∃ r, rs[(k.toNat - 1)]? = some r ∧
        getRecordByPseudoId t table k = Except.ok r) ∧
    ((k < 1 ∨ (rs.length : Int) < k) →
        getRecordByPseudoId t table k = Except.error DBError.notFound) := by
  have hnodup := nodup_ids_of_sorted t.rows hsorted
  obtain ⟨ds, hds, hrs⟩ :
      ∃ ds, decodeRows t.rows = some ds ∧ rs = ds.map fun d => ⟨d, table⟩ := by
    unfold getAllRecords at hall
    cases hd : decodeRows t.rows with
    | none => rw [hd] at hall; cases hall
    | some ds =>
      rw [hd] at hall
      exact ⟨ds, rfl, (Except.ok.inj hall).symm⟩
  have hlen : ds.length = t.rows.length := decodeRows_length t.rows ds hds
  have hrslen : rs.length = ds.length := by rw [hrs]; simp
  constructor
  · intro hk1 hk2
    set j : Nat := k.toNat - 1 with hjdef
    have hj : j < t.rows.length := by omega
    have hj₂ : j < ds.length := by omega
    have hk_eq : ((1 + j : Nat) : Int) = k := by omega
    have hres : resolvePseudoId t.rows k = some ((t.rows.get ⟨j, hj⟩).id) := by
      have h₂ := resolvePseudoId_of_sorted t.rows hsorted j hj
      rwa [hk_eq] at h₂
    have hfind := find?_id_get t.rows hnodup j hj
    have hdec := decodeRows_get t.rows ds hds j hj hj₂
    refine ⟨⟨ds.get ⟨j, hj₂⟩, table⟩, ?_, ?_⟩
    · rw [hrs, List.getElem?_map, List.getElem?_eq_getElem hj₂]
      rfl
    · simp only [getRecordByPseudoId, hres, hfind, hdec]
  · intro hk
    have hres : resolvePseudoId t.rows k = none := by
      apply resolvePseudoId_none
      rcases hk with h | h
      · exact Or.inl h
      · right
        omega
    simp only [getRecordByPseudoId, hres]

/-- Witness for C2 at a concrete two-row table and ordinal 1. -/
theorem getRecordByPseudoId_spec_witness :
    ∃ r, ([(⟨[("id", Field.Integer 1), ("title", Field.Text "Buy milk")],
              "tasks"⟩ : Record),
           ⟨[("id", Field.Integer 2), ("title", Field.Text "Walk dog")],
              "tasks"⟩])[((1 : Int).toNat - 1)]? = some r ∧
      getRecordByPseudoId sample2Table "tasks" 1 = Except.ok r :=
  (getRecordByPseudoId_spec sample2Table "tasks" 1
    [⟨[("id", Field.Integer 1), ("title", Field.Text "Buy milk")], "tasks"⟩,
     ⟨[("id", Field.Integer 2), ("title", Field.Text "Walk dog")], "tasks"⟩]
    (by decide) rfl).1 (by decide) (by decide)

/-- C7 counterexample: with the `tasks` table holding one row and an empty
filter mapping, every row vacuously matches the empty conjunction of
equality conditions — zero rows matching is false — yet `getRecord` neither
returns the first matching row nor raises not-found: the generated
`SELECT * FROM tasks WHERE ` has an empty WHERE clause and fails at
`sqlite3_prepare_v2`, so the claim is false at the empty filter mapping. -/
theorem getRecord_empty_filter_cex :
    rowMatches sampleRow [] = true ∧
    sampleTable.rows.find? (fun r => rowMatches r []) = some sampleRow ∧
    getRecord sampleTable "tasks" [] = Except.error DBError.prepareError ∧
    getRecord sampleTable "tasks" [] ≠ Except.error DBError.notFound ∧
    getRecord sampleTable "tasks" [] ≠
      Except.ok ⟨[("id", Field.Integer 1), ("title", Field.Text "Buy milk")],
        "tasks"⟩ := by
  refine ⟨rfl, rfl, rfl, ?_, ?_⟩
  · intro hc
    injection hc with h₂
    exact DBError.noConfusion h₂
  · intro hc
    injection hc

/-- C7 (amended): for every table and every NON-EMPTY filter mapping,
`getRecord` raises not-found exactly when zero rows match the filter, and
when some row matches, the first matching row in scan order is returned as a
Record provided its columns decode (a BLOB column instead raises the decode
failure, and an empty filter mapping instead fails at prepare — see the
counterexample). -/
theorem getRecord_filter_spec (t : Table) (table : String)
    (filter : List (String × Field)) (hne : filter ≠ []) :
    (getRecord t table filter = Except.error DBError.notFound ↔
      ∀ r ∈ t.rows, rowMatches r filter = false) ∧
    (∀ r, t.rows.find? (fun r₂ => rowMatches r₂ filter) = some r →
      ∀ d, decodeRow r.cols = some d →
        getRecord t table filter = Except.ok ⟨d, table⟩) := by
  have hkeys : filter.map Prod.fst ≠ [] := by
    cases filter with
    | nil => exact absurd rfl hne
    | cons p ps => simp
  have hwc : ¬ whereClause (filter.map Prod.fst) = "" :=
    whereClause_ne_empty _ hkeys
  have hval : ∀ r, t.rows.find? (fun r₂ => rowMatches r₂ filter) = some r →
      getRecord t table filter =
        (match decodeRow r.cols with
          | none => Except.error DBError.decodeError
          | some d => Except.ok ⟨d, table⟩) := by
    intro r hf
    unfold getRecord
    rw [if_neg hwc, bindAll_eq, hf]
  have hnone : t.rows.find? (fun r₂ => rowMatches r₂ filter) = none →
      getRecord t table filter = Except.error DBError.notFound := by
    intro hf
    unfold getRecord
    rw [if_neg hwc, bindAll_eq, hf]
  constructor
  · constructor
    · intro h r hr
      cases hm : rowMatches r filter
      · rfl
      · exfalso
        have hsome : (t.rows.find? fun r₂ => rowMatches r₂ filter).isSome :=
          List.find?_isSome.mpr ⟨r, hr, hm⟩
        obtain ⟨r₂, hf⟩ := Option.isSome_iff_exists.mp hsome
        rw [hval r₂ hf] at h
        cases hdec : decodeRow r₂.cols with
        | none =>
          rw [hdec] at h
          injection h with h₂
          exact DBError.noConfusion h₂
        | some d =>
          rw [hdec] at h
          injection h
    · intro hall
      apply hnone
      apply List.find?_eq_none.mpr
      intro r hr
      simp [hall r hr]
  · intro r hf d hdec
    rw [hval r hf, hdec]

/-- Witness for C7 at a concrete one-row table and a one-key filter. -/
theorem getRecord_filter_witness :
    getRecord sampleTable "tasks" [("id", Field.Integer 1)] =
      Except.ok ⟨[("id", Field.Integer 1), ("title", Field.Text "Buy milk")],
        "tasks"⟩ :=
  (getRecord_filter_spec sampleTable "tasks" [("id", Field.Integer 1)]
    (by decide)).2 sampleRow (by decide)
    [("id", Field.Integer 1), ("title", Field.Text "Buy milk")] rfl

end TimeKeeper
